import Mathlib

/-!
Verification development for the BasiliskII iOS Ethernet driver
(BasiliskII/src/iOS/BasiliskII/ether_ios.cpp).

The definitions below are a shallow embedding of that file, translated
function by function.  Machine integers become Nat/Int, the
std::map<uint16, uint32> net_protocols becomes an association list,
fallible C code becomes Option, and the two threads of the reception
path become an explicit labelled transition system.
-/

/- MacOS error codes used by the driver (enum in ether_ios.cpp /
   ether_defs.h): noErr = 0, eMultiErr = -91, lapProtErr = -94,
   excessCollsns = -95. -/

def noErr : Int := 0

def eMultiErr : Int := -91

def lapProtErr : Int := -94

def excessCollsns : Int := -95

/- The protocol dispatch table: `static map<uint16, uint32> net_protocols`
   maps a 16-bit protocol type to a MacOS handler address.  Modelled as an
   association list with the std::map operations used by the driver. -/

abbrev Table := List (Nat × Nat)

/-- Model of `net_protocols.find(type)` followed by `net_protocols[type]`:
the handler bound to `t`, if any. -/
def findPh : Table → Nat → Option Nat
  | [], _ => none
  | (k, v) :: rest, t => if k = t then some v else findPh rest t

/-- Embedding of `ether_attach_ph` (ether_ios.cpp): if the type already has
an entry return lapProtErr, otherwise insert the handler and return noErr.
Returns the status together with the updated table. -/
def ether_attach_ph (tbl : Table) (t handler : Nat) : Int × Table :=
  if (findPh tbl t).isSome then (lapProtErr, tbl)
  else (noErr, (t, handler) :: tbl)

/-- Model of `net_protocols.erase(type)`: drop the entry for `t`. -/
def mapErase (t : Nat) : Table → Table
  | [] => []
  | (k, v) :: rest => if k = t then mapErase t rest else (k, v) :: mapErase t rest

/-- Embedding of `ether_detach_ph` (ether_ios.cpp): `net_protocols.erase(type)`
removes the entry for `type`; when it erased nothing (the length is
unchanged) the driver returns lapProtErr, otherwise noErr. -/
def ether_detach_ph (tbl : Table) (t : Nat) : Int × Table :=
  let erased := mapErase t tbl
  if erased.length = tbl.length then (lapProtErr, tbl) else (noErr, erased)

/- Device-global state mutated by the driver, one field per global
   variable of ether_ios.cpp (fd, thread_active, slirp_thread_active,
   udp_tunnel, net_if_type, slirp_output_fd, slirp_input_fds,
   ether_addr, net_protocols). -/

/- Ethernet device types (enum NET_IF_...). -/
inductive NetIfKind
  | sheepnet
  | ethertap
  | tuntap
  | slirpIf
  deriving DecidableEq, Repr

structure DeviceState where
  fd : Int
  thread_active : Bool
  slirp_thread_active : Bool
  udp_tunnel : Bool
  net_if_type : NetIfKind
  slirp_output_fd : Int
  slirp_input_fd0 : Int
  slirp_input_fd1 : Int
  ether_addr : List Nat
  net_protocols : Table

/-- Embedding of `ether_reset`: the body is exactly `net_protocols.clear()`;
no other global is touched. -/
def ether_reset (s : DeviceState) : DeviceState :=
  { s with net_protocols := [] }

/- Frames and protocol dispatch. -/

abbrev Frame := List Nat

/-- Model of `ReadMacInt16(p + off)`: big-endian 16-bit read of the frame
bytes at offset `off` (Mac memory is big-endian). -/
def readMacInt16 (f : Frame) (off : Nat) : Nat :=
  256 * f.getD off 0 + f.getD (off + 1) 0

/-- Embedding of `uint16 search_type = (type <= 1500 ? 0 : type)` from
`ether_dispatch_packet`: the key looked up in the dispatch table. -/
def search_type (ty : Nat) : Nat :=
  if ty ≤ 1500 then 0 else ty

/-- The observable effect of `Execute68k(handler, &r)` in
`ether_dispatch_packet`: the handler address and the register/scratch
values the driver hands to the guest protocol handler. -/
structure DispatchCall where
  handler : Nat
  d0_ptype : Nat
  d1_remaining : Nat
  frameLen : Nat
  rhaHeader : List Nat
  deriving DecidableEq, Repr

/-- Embedding of `ether_dispatch_packet` (non-SHEEPSHAVER branch): read the
16-bit type at byte offset 12, normalize it to the dispatch key, look the
key up in the table; on a missing entry or a null (zero) handler return
without calling anything, otherwise copy the 14-byte header to the RHA
scratch area and call the guest handler. -/
def ether_dispatch_packet (tbl : Table) (f : Frame) : Option DispatchCall :=
  let ty := readMacInt16 f 12
  match findPh tbl (search_type ty) with
  | none => none
  | some handler =>
    if handler = 0 then none
    else some ⟨handler, ty, f.length - 14, f.length, f.take 14⟩

/-- Embedding of the read loop of `ether_do_interrupt` (non-UDP branch):
repeatedly `read(fd, ...)` one frame from the pending queue; a read that
returns fewer than 14 bytes (short frame, or -1 when the queue is empty)
breaks the loop, consuming the short frame but leaving the rest queued;
every complete frame is passed to `ether_dispatch_packet`.  Returns the
dispatched calls in order together with the frames left in the queue. -/
def ether_do_interrupt (tbl : Table) : List Frame → List DispatchCall × List Frame
  | [] => ([], [])
  | f :: rest =>
    if f.length < 14 then ([], rest)
    else
      let r := ether_do_interrupt tbl rest
      ((ether_dispatch_packet tbl f).toList ++ r.1, r.2)

/-- One iteration of the reception pipeline as `receive_func` drives it:
`poll(fd)` reports readiness exactly when the host queue is nonempty; on
readiness the thread raises the guest interrupt (SetInterruptFlag +
TriggerInterrupt) without inspecting any frame, and the guest then runs
`ether_do_interrupt`.  Returns (interrupt raised?, dispatched calls,
frames still queued). -/
def receptionIteration (tbl : Table) (queue : List Frame) :
    Bool × List DispatchCall × List Frame :=
  match queue with
  | [] => (false, [], [])
  | _ => (true, ether_do_interrupt tbl queue)

/-- Embedding of `ether_do_write`: on the slirp backend the packet is
written (length-prefixed) to the slirp input pipe and the write results
are ignored, returning noErr unconditionally; on every other backend the
driver returns excessCollsns when `write(fd, packet, len)` is negative and
noErr otherwise.  `writeRes` stands for the return value of the host
write call. -/
def ether_do_write (ifType : NetIfKind) (writeRes : Int) : Int :=
  match ifType with
  | NetIfKind.slirpIf => noErr
  | _ => if writeRes < 0 then excessCollsns else noErr

/- The interrupt bridge: `receive_func` (reception thread) and
   `EtherInterrupt` (guest interrupt-completion path) synchronize through
   the dispatch semaphore `int_ack`, created with value 0, and the
   emulated interrupt flag INTFLAG_ETHER.  The two threads are embedded
   as a labelled transition system; the trace records, most recent event
   first, every raise (SetInterruptFlag + TriggerInterrupt in
   receive_func), every ack (dispatch_semaphore_signal(int_ack) at the
   end of EtherInterrupt) and every wake (dispatch_semaphore_wait
   returning in receive_func). -/

/- Program counter of the reception thread: polling the backend, or
   blocked in dispatch_semaphore_wait(int_ack, DISPATCH_TIME_FOREVER). -/
inductive RecvPC
  | polling
  | waitingAck
  deriving DecidableEq, Repr

inductive Ev
  | raiseEv
  | ackEv
  | wakeEv
  deriving DecidableEq, Repr

structure NetState where
  recv : RecvPC
  intAck : Nat
  intflagEther : Bool
  deriving DecidableEq, Repr

/-- Initial state: thread at the top of its loop, `int_ack` created with
`dispatch_semaphore_create(0)`, interrupt flag clear. -/
def initNetState : NetState := ⟨RecvPC.polling, 0, false⟩

/-- One step of the reception/interrupt system.  `raiseEv`: receive_func,
at the top of its loop with poll readiness, sets INTFLAG_ETHER, triggers
the interrupt and moves to the semaphore wait.  `ackEv`: the guest
services the flag; EtherInterrupt runs ether_do_interrupt and signals
int_ack.  `wakeEv`: the blocked dispatch_semaphore_wait consumes a unit
of int_ack and receive_func returns to polling. -/
inductive EtherStep : NetState → Ev → NetState → Prop
  | raiseStep (s : NetState) : s.recv = RecvPC.polling →
      EtherStep s Ev.raiseEv ⟨RecvPC.waitingAck, s.intAck, true⟩
  | ackStep (s : NetState) : s.intflagEther = true →
      EtherStep s Ev.ackEv ⟨s.recv, s.intAck + 1, false⟩
  | wakeStep (s : NetState) : s.recv = RecvPC.waitingAck → 0 < s.intAck →
      EtherStep s Ev.wakeEv ⟨RecvPC.polling, s.intAck - 1, s.intflagEther⟩

/-- Reachability from the initial state; the trace lists the most recent
event first. -/
inductive EtherReaches : NetState → List Ev → Prop
  | start : EtherReaches initNetState []
  | more {s t e s2} : EtherReaches s t → EtherStep s e s2 →
      EtherReaches s2 (e :: t)

def countE (e : Ev) : List Ev → Nat
  | [] => 0
  | x :: rest => (if x = e then 1 else 0) + countE e rest

def pendN (s : NetState) : Nat := if s.intflagEther then 1 else 0

def waitN (s : NetState) : Nat := if s.recv = RecvPC.waitingAck then 1 else 0

lemma ether_bridge_invariant {s : NetState} {t : List Ev}
    (h : EtherReaches s t) :
    countE Ev.raiseEv t = countE Ev.ackEv t + pendN s ∧
      s.intAck + pendN s = waitN s := by
  induction h with
  | start => simp [countE, pendN, waitN, initNetState]
  | more hr hs ih =>
    rename_i s t e s2
    obtain ⟨r, n, flag⟩ := s
    rcases ih with ⟨ih1, ih2⟩
    cases hs with
    | raiseStep hp =>
      simp only at hp
      subst hp
      simp only [pendN, waitN] at ih1 ih2
      simp at ih2
      cases flag with
      | true => simp at ih1 ih2
      | false =>
        simp at ih1
        simp [countE, pendN, waitN, ih1, ih2]
        omega
    | ackStep hflag =>
      simp only at hflag
      subst hflag
      simp only [pendN, waitN] at ih1 ih2
      simp at ih1 ih2
      simp [countE, pendN, waitN, ih1]
      omega
    | wakeStep hw hpos =>
      simp only at hw hpos
      subst hw
      simp only [pendN, waitN] at ih1 ih2
      cases flag with
      | true => simp at ih2; omega
      | false =>
        simp at ih1 ih2
        simp [countE, pendN, waitN, ih1]
        omega

/- Redirection-rule parsing (slirp_add_redir / slirp_add_redirs).
   C strings become List Char; the NUL terminator corresponds to the end
   of the list, so the `*end != 0` checks become `rest = []`. -/

/-- Embedding of `get_str_sep(buf, buf_size, pp, sep)`: `strchr` the
separator; when absent the call fails; otherwise the text before the
separator (truncated to buf_size - 1 characters) is returned together
with the text after it. -/
def get_str_sep (bufSize : Nat) (sep : Char) : List Char → Option (List Char × List Char)
  | [] => none
  | c :: rest =>
    if c = sep then some ([], rest)
    else (get_str_sep bufSize sep rest).map (fun q => (c :: q.1, q.2))

/-- Value of a hexadecimal digit character, if it is one.  Used to model
the digit scanning of the C library number parsers. -/
def hexVal (c : Char) : Option Nat :=
  if c.isDigit then some (c.toNat - 48)
  else if 'a' ≤ c ∧ c ≤ 'f' then some (c.toNat - 87)
  else if 'A' ≤ c ∧ c ≤ 'F' then some (c.toNat - 55)
  else none

/-- Greedy digit scan in the given base, accumulating the value; returns
the value and the unconsumed remainder. -/
def digitsAccB (base : Nat) (acc : Nat) : List Char → Nat × List Char
  | [] => (acc, [])
  | c :: rest =>
    match hexVal c with
    | some v =>
      if v < base then digitsAccB base (acc * base + v) rest else (acc, c :: rest)
    | none => (acc, c :: rest)

def isSpaceChar (c : Char) : Bool :=
  c = ' ' ∨ c = '\t' ∨ c = '\n' ∨ c = '\r'

def skipSpaces : List Char → List Char
  | [] => []
  | c :: rest => if isSpaceChar c then skipSpaces rest else c :: rest

/-- Model of the C library `strtol(nptr, &endptr, 0)` as used by
`slirp_add_redir`: skip whitespace, optional sign, then a hexadecimal
(0x), octal (leading 0) or decimal number; when no digit is consumed the
value is 0 and endptr is the original nptr.  Returns (value, endptr). -/
def strtol (s : List Char) : Int × List Char :=
  let s1 := skipSpaces s
  let signed : Bool × List Char :=
    match s1 with
    | '-' :: rest => (true, rest)
    | '+' :: rest => (false, rest)
    | _ => (false, s1)
  let neg := signed.1
  let s2 := signed.2
  let scanned : Option (Nat × List Char) :=
    match s2 with
    | '0' :: 'x' :: c :: rest =>
      if (hexVal c).isSome then some (digitsAccB 16 0 (c :: rest))
      else some (0, 'x' :: c :: rest)
    | '0' :: 'X' :: c :: rest =>
      if (hexVal c).isSome then some (digitsAccB 16 0 (c :: rest))
      else some (0, 'X' :: c :: rest)
    | '0' :: rest => some (digitsAccB 8 0 rest)
    | c :: _ => if c.isDigit then some (digitsAccB 10 0 s2) else none
    | [] => none
  match scanned with
  | some (v, rest) => (if neg then -(v : Int) else (v : Int), rest)
  | none => (0, s)

/-- One numeric component of a dotted address for `inet_aton`
(decimal, 0x-hexadecimal or 0-octal, no sign). -/
def inetNum (s : List Char) : Option (Nat × List Char) :=
  match s with
  | [] => none
  | '0' :: 'x' :: c :: rest =>
    if (hexVal c).isSome then some (digitsAccB 16 0 (c :: rest)) else none
  | '0' :: 'X' :: c :: rest =>
    if (hexVal c).isSome then some (digitsAccB 16 0 (c :: rest)) else none
  | '0' :: rest => some (digitsAccB 8 0 rest)
  | c :: _ => if c.isDigit then some (digitsAccB 10 0 s) else none

/-- The dot-separated numeric components of an address string, at most
four of them, each followed by a dot or the end of the string. -/
def inetParts : Nat → List Char → Option (List Nat)
  | 0, _ => none
  | fuel + 1, s =>
    match inetNum s with
    | none => none
    | some (n, rest) =>
      match rest with
      | [] => some [n]
      | '.' :: rest2 => (inetParts fuel rest2).map (fun l => n :: l)
      | _ => none

/-- Model of the C library `inet_aton` for the classic numbers-and-dots
forms a, a.b, a.b.c and a.b.c.d; yields the 32-bit address value. -/
def inet_aton (s : List Char) : Option Nat :=
  match inetParts 4 s with
  | some [a] => if a < 2 ^ 32 then some a else none
  | some [a, b] => if a < 256 ∧ b < 2 ^ 24 then some (a * 2 ^ 24 + b) else none
  | some [a, b, c] =>
    if a < 256 ∧ b < 256 ∧ c < 2 ^ 16 then some (a * 2 ^ 24 + b * 2 ^ 16 + c)
    else none
  | some [a, b, c, d] =>
    if a < 256 ∧ b < 256 ∧ c < 256 ∧ d < 256 then
      some (a * 2 ^ 24 + b * 2 ^ 16 + c * 2 ^ 8 + d)
    else none
  | _ => none

/-- Guest address of a redirection rule.  `ctlLocal` is the result of
`inet_aton(CTL_LOCAL, &guest_addr)` for an empty address field.
Modelled from the spec: CTL_LOCAL, defined in the slirp header ctl.h
which is not under src/, is the well-known NAT client address the rule
defaults to; it is kept as a distinguished value rather than a guessed
numeric constant. -/
inductive GuestAddr
  | ctlLocal
  | explicitAddr (a : Nat)
  deriving DecidableEq, Repr

/-- A parsed redirection rule, the four values `slirp_add_redir` hands to
`slirp_redir(is_udp, host_port, guest_addr, guest_port)`. -/
structure Redir where
  is_udp : Bool
  host_port : Int
  guest_addr : GuestAddr
  guest_port : Int
  deriving DecidableEq, Repr

/-- Embedding of the parsing part of `slirp_add_redir`: protocol token
(tcp, udp, or empty meaning tcp), host port via strtol with a full-token
and 1..65535 range check, guest address (empty defaults to CTL_LOCAL),
guest port parsed from the remainder with the same checks.  `none` is
the fail_syntax path, where the driver emits the invalid-rule warning
and returns -1. -/
def slirp_add_redir (redir_str : List Char) : Option Redir :=
  match get_str_sep 256 ':' redir_str with
  | none => none
  | some (buf1, p1) =>
    let protoCheck : Option Bool :=
      if buf1 = "tcp".toList ∨ buf1 = [] then some false
      else if buf1 = "udp".toList then some true
      else none
    match protoCheck with
    | none => none
    | some isUdp =>
      match get_str_sep 256 ':' p1 with
      | none => none
      | some (buf2, p2) =>
        let hostScan := strtol buf2
        if ¬ (hostScan.2 = []) ∨ hostScan.1 < 1 ∨ 65535 < hostScan.1 then none
        else
          match get_str_sep 256 ':' p2 with
          | none => none
          | some (buf3, p3) =>
            let addrOpt : Option GuestAddr :=
              if buf3 = [] then some GuestAddr.ctlLocal
              else (inet_aton buf3).map GuestAddr.explicitAddr
            match addrOpt with
            | none => none
            | some gaddr =>
              let guestScan := strtol p3
              if ¬ (guestScan.2 = []) ∨ guestScan.1 < 1 ∨ 65535 < guestScan.1 then
                none
              else some ⟨isUdp, hostScan.1, gaddr, guestScan.1⟩

/-- Embedding of `slirp_add_redirs`: iterate over every configured
"redir" preference string and call `slirp_add_redir` on each; a failing
rule only produces its warning, the loop always continues.  Returns the
rules actually installed, in order. -/
def slirp_add_redirs : List (List Char) → List Redir
  | [] => []
  | r :: rest =>
    match slirp_add_redir r with
    | some red => red :: slirp_add_redirs rest
    | none => slirp_add_redirs rest

/- Helper lemmas about the dispatch-table operations. -/

lemma mapErase_of_findPh_none {tbl : Table} {t : Nat}
    (h : findPh tbl t = none) : mapErase t tbl = tbl := by
  induction tbl with
  | nil => rfl
  | cons p rest ih =>
    obtain ⟨k, v⟩ := p
    by_cases hk : k = t
    · simp [findPh, hk] at h
    · simp only [findPh, hk, if_neg hk] at h
      simp [mapErase, hk, ih h]

lemma findPh_mapErase (tbl : Table) (t : Nat) :
    findPh (mapErase t tbl) t = none := by
  induction tbl with
  | nil => rfl
  | cons p rest ih =>
    obtain ⟨k, v⟩ := p
    by_cases hk : k = t
    · simp [mapErase, hk, ih]
    · simp [mapErase, hk, findPh, ih]

lemma mapErase_length_le (t : Nat) (tbl : Table) :
    (mapErase t tbl).length ≤ tbl.length := by
  induction tbl with
  | nil => simp [mapErase]
  | cons p rest ih =>
    obtain ⟨k, v⟩ := p
    by_cases hk : k = t
    · simp only [mapErase, if_pos hk]
      simp
      omega
    · simp only [mapErase, if_neg hk]
      simp
      omega

/- Claim theorems. -/

/-- Claim C1: for every pair of deliverable frames processed back-to-back,
the Reception Loop never raises a second guest interrupt before the first
has been acknowledged: along every reachable trace of the
receive_func/EtherInterrupt system, the number of raises never exceeds
the number of acknowledgments by more than one, because after signalling
the interrupt the thread blocks on int_ack, which only the guest
interrupt-completion path signals. -/
theorem claim_C1_no_second_interrupt_before_ack (s : NetState) (t : List Ev)
    (h : EtherReaches s t) :
    countE Ev.raiseEv t ≤ countE Ev.ackEv t + 1 := by
  have hi := ether_bridge_invariant h
  have hp : pendN s ≤ 1 := by
    unfold pendN
    split <;> omega
  omega

/-- Witness for claim C1: a concrete four-step run (raise, ack, wake,
raise — the trace lists the most recent event first) satisfies the
raise/ack bound. -/
theorem claim_C1_no_second_interrupt_before_ack_witness :
    countE Ev.raiseEv [Ev.raiseEv, Ev.wakeEv, Ev.ackEv, Ev.raiseEv] ≤
      countE Ev.ackEv [Ev.raiseEv, Ev.wakeEv, Ev.ackEv, Ev.raiseEv] + 1 := by
  have h0 : EtherReaches initNetState [] := EtherReaches.start
  have h1 : EtherReaches ⟨RecvPC.waitingAck, 0, true⟩ [Ev.raiseEv] :=
    EtherReaches.more h0 (EtherStep.raiseStep initNetState rfl)
  have h2 : EtherReaches ⟨RecvPC.waitingAck, 1, false⟩ [Ev.ackEv, Ev.raiseEv] :=
    EtherReaches.more h1 (EtherStep.ackStep _ rfl)
  have h3 : EtherReaches ⟨RecvPC.polling, 0, false⟩
      [Ev.wakeEv, Ev.ackEv, Ev.raiseEv] :=
    EtherReaches.more h2 (EtherStep.wakeStep _ rfl (by decide))
  have h4 : EtherReaches ⟨RecvPC.waitingAck, 0, true⟩
      [Ev.raiseEv, Ev.wakeEv, Ev.ackEv, Ev.raiseEv] :=
    EtherReaches.more h3 (EtherStep.raiseStep _ rfl)
  exact claim_C1_no_second_interrupt_before_ack _ _ h4

/- Concrete frames whose 16-bit type field at offset 12 is 1500 and
   1501 (big-endian 5, 220 and 5, 221). -/

def f1500 : Frame := [0, 0, 0, 0, 0, 0, 0, 0, 0, 0, 0, 0, 5, 220]

def f1501 : Frame := [0, 0, 0, 0, 0, 0, 0, 0, 0, 0, 0, 0, 5, 221]

/-- Claim C3: for received frames of length at least 14 on a non-UDP
backend, the dispatch key is 0 for a type field at byte offset 12 of at
most 1500 and the literal type value above 1500; a frame with type field
1500 resolves to key 0 (found under a catch-all entry, missed under a
literal 1500 entry) and a frame with type field 1501 resolves to key
1501. -/
theorem claim_C3_dispatch_key (ty : Nat) :
    ((ty ≤ 1500 → search_type ty = 0) ∧ (1500 < ty → search_type ty = ty)) ∧
    readMacInt16 f1500 12 = 1500 ∧ 14 ≤ f1500.length ∧
    (ether_dispatch_packet [(0, 9)] f1500).isSome = true ∧
    ether_dispatch_packet [(1500, 9)] f1500 = none ∧
    readMacInt16 f1501 12 = 1501 ∧ 14 ≤ f1501.length ∧
    (ether_dispatch_packet [(1501, 9)] f1501).isSome = true ∧
    ether_dispatch_packet [(0, 9)] f1501 = none := by
  refine ⟨⟨?_, ?_⟩, ?_⟩
  · intro hle
    simp [search_type, hle]
  · intro hgt
    unfold search_type
    rw [if_neg (by omega)]
  · decide

/-- Witness for claim C3: the bounds discharged at the concrete type
values 1500 and 1501. -/
theorem claim_C3_dispatch_key_witness :
    search_type 1500 = 0 ∧ search_type 1501 = 1501 ∧
      readMacInt16 f1500 12 = 1500 :=
  ⟨(claim_C3_dispatch_key 1500).1.1 (by decide),
   (claim_C3_dispatch_key 1501).1.2 (by decide),
   (claim_C3_dispatch_key 0).2.1⟩

/-- Claim C5: attach on a type with no entry succeeds and inserts the
handler; an immediate second attach fails with lapProtErr (the
AlreadyAttached error) leaving the table unchanged; detach then removes
the entry so a subsequent attach succeeds; detach on a type with no
entry fails with lapProtErr (the NotAttached error) and leaves the table
unchanged.  (The driver reports both dispatch errors with the single
code lapProtErr = -94.) -/
theorem claim_C5_attach_detach (tbl : Table) (t h h2 : Nat)
    (habs : findPh tbl t = none) :
    (ether_attach_ph tbl t h).1 = noErr ∧
    findPh (ether_attach_ph tbl t h).2 t = some h ∧
    (ether_attach_ph (ether_attach_ph tbl t h).2 t h2).1 = lapProtErr ∧
    (ether_attach_ph (ether_attach_ph tbl t h).2 t h2).2 =
      (ether_attach_ph tbl t h).2 ∧
    (ether_detach_ph (ether_attach_ph tbl t h).2 t).1 = noErr ∧
    findPh (ether_detach_ph (ether_attach_ph tbl t h).2 t).2 t = none ∧
    (ether_attach_ph (ether_detach_ph (ether_attach_ph tbl t h).2 t).2 t h2).1 =
      noErr ∧
    (ether_detach_ph tbl t).1 = lapProtErr ∧
    (ether_detach_ph tbl t).2 = tbl := by
  have e1 : ether_attach_ph tbl t h = (noErr, (t, h) :: tbl) := by
    simp [ether_attach_ph, habs]
  have hfind1 : findPh ((t, h) :: tbl) t = some h := by simp [findPh]
  have e2 : ether_attach_ph ((t, h) :: tbl) t h2 = (lapProtErr, (t, h) :: tbl) := by
    simp [ether_attach_ph, hfind1]
  have her : mapErase t ((t, h) :: tbl) = tbl := by
    simp [mapErase, mapErase_of_findPh_none habs]
  have e3 : ether_detach_ph ((t, h) :: tbl) t = (noErr, tbl) := by
    simp [ether_detach_ph, her]
  have e4 : ether_attach_ph tbl t h2 = (noErr, (t, h2) :: tbl) := by
    simp [ether_attach_ph, habs]
  have e5 : ether_detach_ph tbl t = (lapProtErr, tbl) := by
    simp [ether_detach_ph, mapErase_of_findPh_none habs]
  simp [e1, e2, e3, e4, e5, hfind1, habs]

/-- Witness for claim C5: the attach/detach sequence at the concrete
type 3 with handlers 7 and 9 on the empty table. -/
theorem claim_C5_attach_detach_witness :
    findPh [] 3 = none ∧
    ((ether_attach_ph [] 3 7).1 = noErr ∧
     findPh (ether_attach_ph [] 3 7).2 3 = some 7 ∧
     (ether_attach_ph (ether_attach_ph [] 3 7).2 3 9).1 = lapProtErr ∧
     (ether_attach_ph (ether_attach_ph [] 3 7).2 3 9).2 =
       (ether_attach_ph [] 3 7).2 ∧
     (ether_detach_ph (ether_attach_ph [] 3 7).2 3).1 = noErr ∧
     findPh (ether_detach_ph (ether_attach_ph [] 3 7).2 3).2 3 = none ∧
     (ether_attach_ph (ether_detach_ph (ether_attach_ph [] 3 7).2 3).2 3 9).1 =
       noErr ∧
     (ether_detach_ph [] 3).1 = lapProtErr ∧
     (ether_detach_ph [] 3).2 = []) :=
  ⟨rfl, claim_C5_attach_detach [] 3 7 9 rfl⟩

/-- Claim C9: ether_reset empties the protocol dispatch table — lookup of
every protocol type afterwards finds no handler — and leaves every other
component of the device state (backend descriptor, thread flags,
UDP-tunnel flag, backend kind, pipe descriptors, Ethernet address)
unchanged. -/
theorem claim_C9_reset_clears_only_table (s : DeviceState) (ty : Nat) :
    findPh (ether_reset s).net_protocols ty = none ∧
    (ether_reset s).fd = s.fd ∧
    (ether_reset s).thread_active = s.thread_active ∧
    (ether_reset s).slirp_thread_active = s.slirp_thread_active ∧
    (ether_reset s).udp_tunnel = s.udp_tunnel ∧
    (ether_reset s).net_if_type = s.net_if_type ∧
    (ether_reset s).slirp_output_fd = s.slirp_output_fd ∧
    (ether_reset s).slirp_input_fd0 = s.slirp_input_fd0 ∧
    (ether_reset s).slirp_input_fd1 = s.slirp_input_fd1 ∧
    (ether_reset s).ether_addr = s.ether_addr :=
  ⟨rfl, rfl, rfl, rfl, rfl, rfl, rfl, rfl, rfl, rfl⟩

/- A catch-all table entry with a nonzero handler, and concrete frames
   used by the counterexamples. -/

def tblCatchAll : Table := [(0, 77)]

def frame14 : Frame := List.replicate 14 0

def shortFrame : Frame := List.replicate 10 0

/-- Counterexample to claim C2: with two complete frames queued when the
interrupt fires, the single signalled interrupt dispatches both of them
— the read loop of ether_do_interrupt drains the queue, so the
interrupt-to-dispatched-frame correspondence is not one-to-one. -/
theorem claim_C2_counterexample :
    (receptionIteration tblCatchAll [frame14, frame14]).1 = true ∧
    ((receptionIteration tblCatchAll [frame14, frame14]).2.1).length = 2 := by
  decide

/-- Claim C2 as amended: the handling of one signalled interrupt
dispatches every complete queued frame — when all queued frames have
length at least 14, ether_do_interrupt dispatches exactly the frames
that resolve to a nonzero handler (zero, one or more of them) and
empties the queue. -/
theorem claim_C2_amended_interrupt_drains_queue (tbl : Table)
    (queue : List Frame) (hall : ∀ f ∈ queue, 14 ≤ f.length) :
    ether_do_interrupt tbl queue =
      (queue.filterMap (ether_dispatch_packet tbl), []) := by
  induction queue with
  | nil => rfl
  | cons f rest ih =>
    have hf : ¬ f.length < 14 := by
      have := hall f (by simp)
      omega
    have hrest : ∀ g ∈ rest, 14 ≤ g.length := fun g hg => hall g (by simp [hg])
    cases hdp : ether_dispatch_packet tbl f with
    | none => simp [ether_do_interrupt, hf, ih hrest, List.filterMap_cons, hdp]
    | some c => simp [ether_do_interrupt, hf, ih hrest, List.filterMap_cons, hdp]

/-- Witness for the amended claim C2: the two-frame queue from the
counterexample is drained in one interrupt. -/
theorem claim_C2_amended_interrupt_drains_queue_witness :
    ether_do_interrupt tblCatchAll [frame14, frame14] =
      ([frame14, frame14].filterMap (ether_dispatch_packet tblCatchAll), []) :=
  claim_C2_amended_interrupt_drains_queue tblCatchAll [frame14, frame14]
    (by decide)

/-- Helper: a dispatched call records the length of the frame it came
from. -/
lemma dispatch_frameLen {tbl : Table} {f : Frame} {c : DispatchCall}
    (h : ether_dispatch_packet tbl f = some c) : c.frameLen = f.length := by
  simp only [ether_dispatch_packet] at h
  cases hf : findPh tbl (search_type (readMacInt16 f 12)) with
  | none => rw [hf] at h; simp at h
  | some handler =>
    rw [hf] at h
    by_cases h0 : handler = 0
    · simp [h0] at h
    · simp [h0] at h
      rw [← h]

/-- Counterexample to claim C4: when the only pending frame is shorter
than 14 bytes, the Reception Loop still raises a guest interrupt — poll
readiness is signalled before any length is known — even though nothing
is dispatched for it. -/
theorem claim_C4_counterexample :
    shortFrame.length < 14 ∧
    (receptionIteration tblCatchAll [shortFrame]).1 = true ∧
    (receptionIteration tblCatchAll [shortFrame]).2.1 = [] := by
  decide

/-- Claim C4 as amended: a frame shorter than 14 bytes is never
dispatched to a guest protocol handler — every call the interrupt
handler makes comes from a frame of length at least 14 (the short frame
is consumed and dropped, ending the drain loop), though the Reception
Loop may still have raised an interrupt on its arrival. -/
theorem claim_C4_amended_short_never_dispatched (tbl : Table)
    (queue : List Frame) (c : DispatchCall)
    (hc : c ∈ (ether_do_interrupt tbl queue).1) :
    14 ≤ c.frameLen := by
  induction queue with
  | nil => simp [ether_do_interrupt] at hc
  | cons f rest ih =>
    by_cases hlen : f.length < 14
    · simp [ether_do_interrupt, hlen] at hc
    · have hstep : ether_do_interrupt tbl (f :: rest) =
          ((ether_dispatch_packet tbl f).toList ++ (ether_do_interrupt tbl rest).1,
            (ether_do_interrupt tbl rest).2) := by
        simp [ether_do_interrupt, hlen]
      rw [hstep] at hc
      simp only [List.mem_append] at hc
      rcases hc with hc1 | hc2
      · cases hdp : ether_dispatch_packet tbl f with
        | none => rw [hdp] at hc1; simp at hc1
        | some d =>
          rw [hdp] at hc1
          simp [Option.toList] at hc1
          subst hc1
          rw [dispatch_frameLen hdp]
          omega
      · exact ih hc2

/-- Witness for the amended claim C4: the call dispatched for a concrete
14-byte frame indeed has frameLen at least 14. -/
theorem claim_C4_amended_short_never_dispatched_witness :
    (⟨77, 0, 0, 14, List.replicate 14 0⟩ : DispatchCall) ∈
      (ether_do_interrupt tblCatchAll [frame14]).1 ∧
    14 ≤ (⟨77, 0, 0, 14, List.replicate 14 0⟩ : DispatchCall).frameLen :=
  ⟨by decide,
   claim_C4_amended_short_never_dispatched tblCatchAll [frame14] _ (by decide)⟩

/-- Counterexample to claim C6: on the slirp (NAT) backend the driver
ignores the return values of the pipe writes, so a failing backend write
(return value -1) is still reported as noErr, not as excessCollsns. -/
theorem claim_C6_counterexample :
    (-1 : Int) < 0 ∧ ether_do_write NetIfKind.slirpIf (-1) = noErr ∧
      noErr ≠ excessCollsns := by
  decide

/-- Claim C6 as amended: on the raw-device backends (sheep_net, ethertap,
TUN/TAP) transmit returns excessCollsns exactly when the host write
fails (returns a negative value) and noErr otherwise — a dropped
transmission, never a fatal condition; on the slirp backend the write
results are ignored and transmit always returns noErr. -/
theorem claim_C6_amended_write_failure (res : Int) :
    (ether_do_write NetIfKind.sheepnet res = excessCollsns ↔ res < 0) ∧
    (ether_do_write NetIfKind.ethertap res = excessCollsns ↔ res < 0) ∧
    (ether_do_write NetIfKind.tuntap res = excessCollsns ↔ res < 0) ∧
    (ether_do_write NetIfKind.sheepnet res = noErr ↔ 0 ≤ res) ∧
    ether_do_write NetIfKind.slirpIf res = noErr := by
  have hxc : ((if res < 0 then excessCollsns else noErr) = excessCollsns ↔
      res < 0) := by
    by_cases h : res < 0 <;> simp [h, noErr, excessCollsns]
  have hnoe : ((if res < 0 then excessCollsns else noErr) = noErr ↔
      0 ≤ res) := by
    by_cases h : res < 0
    · simp [h, noErr, excessCollsns]
    · simp [h, noErr, excessCollsns]
      omega
  exact ⟨hxc, hxc, hxc, hnoe, rfl⟩

/-- Witness for the amended claim C6: evaluated at the concrete write
result -1. -/
theorem claim_C6_amended_write_failure_witness :
    (ether_do_write NetIfKind.sheepnet (-1) = excessCollsns ↔ (-1 : Int) < 0) ∧
    (ether_do_write NetIfKind.ethertap (-1) = excessCollsns ↔ (-1 : Int) < 0) ∧
    (ether_do_write NetIfKind.tuntap (-1) = excessCollsns ↔ (-1 : Int) < 0) ∧
    (ether_do_write NetIfKind.sheepnet (-1) = noErr ↔ (0 : Int) ≤ -1) ∧
    ether_do_write NetIfKind.slirpIf (-1) = noErr :=
  claim_C6_amended_write_failure (-1)

/-- Claim C7: "tcp:8080::80" parses to tcp, host port 8080, the default
NAT client guest address (CTL_LOCAL) and guest port 80;
"udp:1:2.3.4.5:99999" is rejected because the guest port is outside
1..65535; "bogus" is rejected; an empty protocol field defaults to
tcp. -/
theorem claim_C7_redir_parsing :
    slirp_add_redir "tcp:8080::80".toList =
      some ⟨false, 8080, GuestAddr.ctlLocal, 80⟩ ∧
    slirp_add_redir "udp:1:2.3.4.5:99999".toList = none ∧
    slirp_add_redir "bogus".toList = none ∧
    slirp_add_redir ":8080::80".toList =
      some ⟨false, 8080, GuestAddr.ctlLocal, 80⟩ := by
  refine ⟨by decide, by decide, by decide, by decide⟩

/-- Helper: slirp_add_redirs distributes over list append. -/
lemma slirp_add_redirs_append (xs ys : List (List Char)) :
    slirp_add_redirs (xs ++ ys) =
      slirp_add_redirs xs ++ slirp_add_redirs ys := by
  induction xs with
  | nil => rfl
  | cons r rest ih =>
    cases hr : slirp_add_redir r <;> simp [slirp_add_redirs, hr, ih]

/-- Helper: every rule in the list that parses gets installed. -/
lemma mem_slirp_add_redirs {rules : List (List Char)} {r : List Char}
    {red : Redir} (hmem : r ∈ rules) (hp : slirp_add_redir r = some red) :
    red ∈ slirp_add_redirs rules := by
  induction rules with
  | nil => cases hmem
  | cons x rest ih =>
    rcases List.mem_cons.mp hmem with h | h
    · subst h
      simp [slirp_add_redirs, hp]
    · cases hx : slirp_add_redir x <;> simp [slirp_add_redirs, hx, ih h]

/-- Claim C8: a malformed redirection rule is skipped (it produces its
configuration warning and installs nothing) while every remaining
well-formed rule in the list is still installed — one bad rule never
aborts processing of the others. -/
theorem claim_C8_bad_rule_skipped (pre post : List (List Char))
    (bad : List Char) (hbad : slirp_add_redir bad = none) :
    slirp_add_redirs (pre ++ bad :: post) = slirp_add_redirs (pre ++ post) ∧
    ∀ r ∈ pre ++ post, ∀ red, slirp_add_redir r = some red →
      red ∈ slirp_add_redirs (pre ++ bad :: post) := by
  have hskip : slirp_add_redirs (pre ++ bad :: post) =
      slirp_add_redirs (pre ++ post) := by
    rw [show pre ++ bad :: post = pre ++ [bad] ++ post by simp]
    rw [slirp_add_redirs_append, slirp_add_redirs_append,
      slirp_add_redirs_append]
    simp [slirp_add_redirs, hbad]
  refine ⟨hskip, ?_⟩
  intro r hr red hred
  rw [hskip]
  exact mem_slirp_add_redirs hr hred

/-- Witness for claim C8: the rule list with "bogus" between two valid
rules installs exactly what the list without it installs, and each valid
rule is installed. -/
theorem claim_C8_bad_rule_skipped_witness :
    slirp_add_redir "bogus".toList = none ∧
    (slirp_add_redirs
        (["tcp:8080::80".toList] ++ "bogus".toList ::
          ["udp:1000:2.3.4.5:90".toList]) =
      slirp_add_redirs
        (["tcp:8080::80".toList] ++ ["udp:1000:2.3.4.5:90".toList]) ∧
     ∀ r ∈ ["tcp:8080::80".toList] ++ ["udp:1000:2.3.4.5:90".toList],
       ∀ red, slirp_add_redir r = some red →
         red ∈ slirp_add_redirs
           (["tcp:8080::80".toList] ++ "bogus".toList ::
             ["udp:1000:2.3.4.5:90".toList])) :=
  ⟨by decide,
   claim_C8_bad_rule_skipped ["tcp:8080::80".toList]
     ["udp:1000:2.3.4.5:90".toList] "bogus".toList (by decide)⟩

/-- Claim C10: attaching a null (zero) handler to a free type succeeds
and inserts the zero handler; every frame resolving to that type is then
silently dropped at dispatch (no guest handler call); a later attach
with a real handler fails with lapProtErr until a detach removes the
entry, after which attach succeeds. -/
theorem claim_C10_null_handler (tbl : Table) (t h2 : Nat) (f : Frame)
    (habs : findPh tbl t = none)
    (hkey : search_type (readMacInt16 f 12) = t) :
    (ether_attach_ph tbl t 0).1 = noErr ∧
    findPh (ether_attach_ph tbl t 0).2 t = some 0 ∧
    ether_dispatch_packet (ether_attach_ph tbl t 0).2 f = none ∧
    (ether_attach_ph (ether_attach_ph tbl t 0).2 t h2).1 = lapProtErr ∧
    (ether_detach_ph (ether_attach_ph tbl t 0).2 t).1 = noErr ∧
    (ether_attach_ph (ether_detach_ph (ether_attach_ph tbl t 0).2 t).2 t h2).1 =
      noErr := by
  have e1 : ether_attach_ph tbl t 0 = (noErr, (t, 0) :: tbl) := by
    simp [ether_attach_ph, habs]
  have hfind1 : findPh ((t, 0) :: tbl) t = some 0 := by simp [findPh]
  have hdisp : ether_dispatch_packet ((t, 0) :: tbl) f = none := by
    simp only [ether_dispatch_packet, hkey, hfind1]
    simp
  have e2 : ether_attach_ph ((t, 0) :: tbl) t h2 = (lapProtErr, (t, 0) :: tbl) := by
    simp [ether_attach_ph, hfind1]
  have her : mapErase t ((t, 0) :: tbl) = tbl := by
    simp [mapErase, mapErase_of_findPh_none habs]
  have e3 : ether_detach_ph ((t, 0) :: tbl) t = (noErr, tbl) := by
    simp [ether_detach_ph, her]
  have e4 : ether_attach_ph tbl t h2 = (noErr, (t, h2) :: tbl) := by
    simp [ether_attach_ph, habs]
  simp [e1, e2, e3, e4, hfind1, hdisp]

/-- Witness for claim C10: type 2048 on the empty table with a frame
whose type field is 2048 (bytes 8, 0 at offset 12). -/
theorem claim_C10_null_handler_witness :
    findPh [] 2048 = none ∧
    search_type (readMacInt16 [0, 0, 0, 0, 0, 0, 0, 0, 0, 0, 0, 0, 8, 0] 12) =
      2048 ∧
    ((ether_attach_ph [] 2048 0).1 = noErr ∧
     findPh (ether_attach_ph [] 2048 0).2 2048 = some 0 ∧
     ether_dispatch_packet (ether_attach_ph [] 2048 0).2
       [0, 0, 0, 0, 0, 0, 0, 0, 0, 0, 0, 0, 8, 0] = none ∧
     (ether_attach_ph (ether_attach_ph [] 2048 0).2 2048 5).1 = lapProtErr ∧
     (ether_detach_ph (ether_attach_ph [] 2048 0).2 2048).1 = noErr ∧
     (ether_attach_ph
         (ether_detach_ph (ether_attach_ph [] 2048 0).2 2048).2 2048 5).1 =
       noErr) :=
  ⟨rfl, by decide,
   claim_C10_null_handler [] 2048 5 [0, 0, 0, 0, 0, 0, 0, 0, 0, 0, 0, 0, 8, 0]
     rfl (by decide)⟩
